import Mathlib

/-!
Shallow embedding of the workflow synchronisation engine
(`tools/workflow_sync`): the diff computer, the skip-condition
evaluator, the branch/PR transaction, the orchestrator and the two
scheduling strategies, together with the data model they operate on.

The remote GitHub gateway is modelled as a deterministic oracle
(`Env`): every gateway call is a pure function of its arguments, with
`Except` results standing for calls that can raise, `Option` results
standing for 404-style absence, and `Bool` results standing for calls
whose exception text is never observed by the service.  Mutating
gateway calls are additionally recorded in an effect trace
(`List Effect`) so that frame properties ("no branch is created under
dry run") are statable.
-/

set_option autoImplicit false

deriving instance DecidableEq for Except

namespace WorkflowSync

/-- Status of a synchronisation result (models the `SyncStatus` enum). -/
inductive SyncStatus where
  | SUCCESS
  | SKIPPED
  | ERROR
  | NO_CHANGES
deriving Repr, DecidableEq

/-- Result record for one processed repository (models the `SyncResult`
dataclass; `duration_seconds` is kept as a field but wall-clock time is
not modelled, so it stays at its default). -/
structure SyncResult where
  repo_name : String
  status : SyncStatus
  pr_url : Option String := none
  message : String := ""
  files_updated : List String := []
  files_failed : List String := []
  branch_created : Option String := none
  duration_seconds : Nat := 0
deriving Repr, DecidableEq

/-- Run configuration (models the `SyncConfig` dataclass). -/
structure SyncConfig where
  token : String
  org : String
  topic : String
  source_repo : String
  dry_run : Bool := false
  files_filter : List String := []
  max_workers : Nat := 4
  timeout : Nat := 30
deriving Repr, DecidableEq

/-- One pending file mutation (models the `FileChange` dataclass). -/
structure FileChange where
  filename : String
  content : String
  existing_sha : Option String := none
deriving Repr, DecidableEq

/-- Models the `FileChange.is_new` property. -/
def FileChange.is_new (c : FileChange) : Bool :=
  c.existing_sha.isNone

/-- Candidate repository snapshot produced by topic search (models the
`RepositoryInfo` dataclass). -/
structure RepositoryInfo where
  name : String
  full_name : String
  default_branch : String
  archived : Bool := false
  has_push_permission : Bool := true
deriving Repr, DecidableEq

/-- Target repository handle (models the PyGithub `Repository` object as
seen by the service).  `default_branch` models the lazy attribute
access, which can raise on an empty repository: the `.error` case
carries the exception text. -/
structure Repo where
  name : String
  full_name : String
  archived : Bool
  default_branch : Except String String
deriving Repr, DecidableEq

/-- One directory entry as returned by the gateway content listing
(`ftype` models the PyGithub `content.type` attribute, `"file"` for
plain files). -/
structure DirEntry where
  name : String
  content : String
  ftype : String
deriving Repr, DecidableEq

/-- Mutating gateway calls recorded by the transaction. -/
inductive Effect where
  | createBranch (name : String)
  | writeFile (path : String)
  | createPR (head : String)
  | deleteBranch (name : String)
deriving Repr, DecidableEq

/-- Deterministic oracle for the remote gateway.  Fields are keyed the
way the corresponding client calls are keyed (repository full name,
path, branch name); `timestampMs` and `randSuffix` model the clock and
the random generator read by branch-name generation. -/
structure Env where
  getRepo : String → Repo
  searchByTopic : String → String → List RepositoryInfo
  listDir : String → String → Option (List DirEntry)
  getFile : String → String → Except String (Option (String × String))
  openPulls : String → List (String × String)
  baseSha : String → String → Except String String
  branchExistsRes : String → String → Except String Bool
  createBranchRes : String → String → Except String Unit
  writeOk : String → String → Bool
  createPullRes : String → String → Except String String
  deleteOk : String → String → Bool
  timestampMs : Nat
  randSuffix : Nat

/-- Models `WorkflowSyncService.WORKFLOWS_PATH`. -/
def WORKFLOWS_PATH : String := ".github/workflows"

/-- Models `WorkflowSyncService.BRANCH_PREFIX`, the reserved branch
name stem `sync/workflows-update`. -/
def branchPrefixName : String := "sync/workflows-update"

/-- Characters stripped by Python `str.strip()` with no argument. -/
def isPySpace (c : Char) : Bool :=
  c = ' ' || c = '\t' || c = '\n' || c = '\r' || c = '\x0b' || c = '\x0c'

/-- Models Python `str.strip()`: drop leading and trailing whitespace. -/
def pyStrip (s : String) : String :=
  String.mk (((s.data.dropWhile isPySpace).reverse.dropWhile isPySpace).reverse)

/-- Models Python `s.startswith(pre)`. -/
def pyStartswith (s pre : String) : Bool :=
  pre.data.isPrefixOf s.data

/-- Models Python `s.endswith(suf)` for one suffix. -/
def pyEndswith (s suf : String) : Bool :=
  suf.data.isSuffixOf s.data

/-- Path of a workflow file inside a repository. -/
def wfPath (filename : String) : String :=
  WORKFLOWS_PATH ++ "/" ++ filename

/-- Models `GitHubClient.get_workflow_files`: list the directory and
keep the plain files whose name ends in `.yml` or `.yaml`; a missing
path (404) raises `SourceRepoError`. -/
def get_workflow_files (env : Env) (repoFullName path : String) :
    Except String (List (String × String)) :=
  match env.listDir repoFullName path with
  | none => .error ("Workflows path not found: " ++ path)
  | some entries =>
    .ok (entries.filterMap fun e =>
      if e.ftype == "file" && (pyEndswith e.name ".yml" || pyEndswith e.name ".yaml")
      then some (e.name, e.content) else none)

/-- Full name `org/source_repo` of the source repository. -/
def sourceFullName (cfg : SyncConfig) : String :=
  cfg.org ++ "/" ++ cfg.source_repo

/-- Models `WorkflowSyncService._load_source_workflows`: load the
workflow files of the source repository, apply the optional filename filter (only
when the filter list is non-empty, mirroring Python truthiness), and
raise `SourceRepoError` when the result is empty. -/
def load_source_workflows (env : Env) (cfg : SyncConfig) :
    Except String (List (String × String)) :=
  let source_repo := env.getRepo (sourceFullName cfg)
  match get_workflow_files env source_repo.full_name WORKFLOWS_PATH with
  | .error e => .error e
  | .ok workflows =>
    let workflows :=
      if cfg.files_filter.isEmpty then workflows
      else workflows.filter (fun kv => cfg.files_filter.contains kv.1)
    if workflows.isEmpty then
      .error ("No se encontraron workflows en " ++ WORKFLOWS_PATH)
    else .ok workflows

/-- Models `WorkflowSyncService._check_skip_conditions`: archived repo,
then unresolvable default branch (attribute raises, or is falsy), then
pre-existing open PR whose head branch starts with the reserved
prefix — first match wins; `none` means proceed. -/
def check_skip_conditions (env : Env) (repo : Repo) : Option SyncResult :=
  if repo.archived then
    some { repo_name := repo.name, status := .SKIPPED,
           message := "Repositorio archivado" }
  else
    match repo.default_branch with
    | .error _ =>
      some { repo_name := repo.name, status := .SKIPPED,
             message := "Repositorio vacío (sin commits)" }
    | .ok db =>
      if db = "" then
        some { repo_name := repo.name, status := .SKIPPED,
               message := "Repositorio sin branch por defecto" }
      else
        match (env.openPulls repo.full_name).filter
            (fun p => pyStartswith p.1 branchPrefixName) with
        | [] => none
        | pr :: _ =>
          some { repo_name := repo.name, status := .SKIPPED,
                 message := "PR de sync existente: " ++ pr.2 }

/-- Recursion of `_get_required_changes` over the source workflow
items, in insertion order; a read that raises aborts the whole
computation, a 404 read yields a creation, a differing
stripped-content read yields an update carrying the version token. -/
def getRequiredChangesGo (env : Env) (repoFullName : String) :
    List (String × String) → Except String (List FileChange)
  | [] => .ok []
  | (filename, new_content) :: rest =>
    match env.getFile repoFullName (wfPath filename) with
    | .error e => .error e
    | .ok none =>
      match getRequiredChangesGo env repoFullName rest with
      | .error e => .error e
      | .ok cs => .ok ({ filename := filename, content := new_content } :: cs)
    | .ok (some (existing_content, sha)) =>
      match getRequiredChangesGo env repoFullName rest with
      | .error e => .error e
      | .ok cs =>
        if pyStrip existing_content ≠ pyStrip new_content then
          .ok ({ filename := filename, content := new_content,
                 existing_sha := some sha } :: cs)
        else .ok cs

/-- Models `WorkflowSyncService._get_required_changes`. -/
def get_required_changes (env : Env) (source_workflows : List (String × String))
    (repo : Repo) : Except String (List FileChange) :=
  getRequiredChangesGo env repo.full_name source_workflows

/-- Models `WorkflowSyncService._generate_unique_branch_name`: prefix
plus millisecond timestamp; when that name already exists append a
random four-digit disambiguator (`randint(1000, 9999)` modelled as
`1000 + randSuffix % 9000`).  The underlying `branch_exists` call
raises on non-404 errors, hence the `Except`. -/
def generate_unique_branch_name (env : Env) (repo : Repo) : Except String String :=
  let branch_name := branchPrefixName ++ "-" ++ toString env.timestampMs
  match env.branchExistsRes repo.full_name branch_name with
  | .error e => .error e
  | .ok true => .ok (branch_name ++ "-" ++ toString (1000 + env.randSuffix % 9000))
  | .ok false => .ok branch_name

/-- Per-file write loop of `_create_sync_pr`: each write is attempted
independently; a success appends to `files_updated`, a failure is
logged and appends to `files_failed`.  Returns
(files_updated, files_failed, write effects), all in change order. -/
def applyChanges (env : Env) (repoFullName branch : String) :
    List FileChange → List String × List String × List Effect
  | [] => ([], [], [])
  | change :: rest =>
    let path := wfPath change.filename
    let (upd, failed, tr) := applyChanges env repoFullName branch rest
    if env.writeOk repoFullName path then
      (change.filename :: upd, failed, Effect.writeFile path :: tr)
    else
      (upd, change.filename :: failed, Effect.writeFile path :: tr)

/-- Error-path result built by the outer exception handler of the transaction. -/
def errorResult (repo : Repo) (msg : String) (upd failed : List String)
    (br : Option String) : SyncResult :=
  { repo_name := repo.name, status := .ERROR, message := msg,
    files_updated := upd, files_failed := failed, branch_created := br }

/-- Models `WorkflowSyncService._create_sync_pr`, the branch/PR
transaction: resolve the base sha, create a uniquely named branch,
apply every file change independently, then either roll the branch
back with status `ERROR` (all writes failed) or open a pull request
with status `SUCCESS`.  Any raise past the branch-name assignment
triggers a best-effort branch deletion in the outer handler.  The
second component is the trace of mutating gateway calls. -/
def create_sync_pr (env : Env) (_cfg : SyncConfig) (repo : Repo)
    (changes : List FileChange) : SyncResult × List Effect :=
  match repo.default_branch with
  | .error e => (errorResult repo ("Error: " ++ e) [] [] none, [])
  | .ok default_branch =>
    match env.baseSha repo.full_name default_branch with
    | .error e => (errorResult repo ("Error: " ++ e) [] [] none, [])
    | .ok _base_sha =>
      match generate_unique_branch_name env repo with
      | .error e => (errorResult repo ("Error: " ++ e) [] [] none, [])
      | .ok branch_name =>
        match env.createBranchRes repo.full_name branch_name with
        | .error e =>
          (errorResult repo ("Error: " ++ e) [] [] (some branch_name),
           [Effect.createBranch branch_name, Effect.deleteBranch branch_name])
        | .ok _ =>
          let (files_updated, files_failed, wtr) :=
            applyChanges env repo.full_name branch_name changes
          let tr := Effect.createBranch branch_name :: wtr
          if files_updated.isEmpty then
            ({ repo_name := repo.name, status := .ERROR,
               message := "Todas las actualizaciones fallaron",
               files_failed := files_failed,
               branch_created := some branch_name },
             tr ++ [Effect.deleteBranch branch_name])
          else
            match env.createPullRes repo.full_name branch_name with
            | .error e =>
              (errorResult repo ("Error: " ++ e) files_updated files_failed
                 (some branch_name),
               tr ++ [Effect.createPR branch_name, Effect.deleteBranch branch_name])
            | .ok pr_url =>
              ({ repo_name := repo.name, status := .SUCCESS,
                 pr_url := some pr_url,
                 message := toString files_updated.length ++ " archivo(s) actualizados",
                 files_updated := files_updated,
                 files_failed := files_failed,
                 branch_created := some branch_name },
               tr ++ [Effect.createPR branch_name])

/-- Models `WorkflowSyncService.sync_single_repo`: skip checks, then
diff, then the no-changes early return, then the dry-run early return,
then the transaction.  A raise from the diff stage is caught by the
outer handler (where `branch_created` is still `None`). -/
def sync_single_repo (env : Env) (cfg : SyncConfig)
    (source_workflows : List (String × String)) (repo : Repo) :
    SyncResult × List Effect :=
  match check_skip_conditions env repo with
  | some r => (r, [])
  | none =>
    match get_required_changes env source_workflows repo with
    | .error e =>
      ({ repo_name := repo.name, status := .ERROR,
         message := "Error: " ++ e }, [])
    | .ok changes =>
      if changes.isEmpty then
        ({ repo_name := repo.name, status := .NO_CHANGES,
           message := "Todos los workflows están actualizados" }, [])
      else if cfg.dry_run then
        ({ repo_name := repo.name, status := .SKIPPED,
           message := "Dry run - " ++ toString changes.length ++ " archivo(s) cambiarían",
           files_updated := changes.map (·.filename) }, [])
      else
        create_sync_pr env cfg repo changes

/-- Models `SequentialSyncStrategy.sync`: one repository at a time, in
input order (rate-limit pacing has no observable effect on results and
is not modelled). -/
def sequentialSync (env : Env) (cfg : SyncConfig)
    (source_workflows : List (String × String)) (repos : List Repo) :
    List SyncResult :=
  repos.map (fun r => (sync_single_repo env cfg source_workflows r).1)

/-- Models `ParallelSyncStrategy.sync`: all repositories are submitted
to the pool and results are collected in completion order, which the
embedding takes as an explicit parameter (a permutation of the
submitted list); since `sync_single_repo` is total, the worker-crash
conversion branch is unreachable. -/
def parallelSync (env : Env) (cfg : SyncConfig)
    (source_workflows : List (String × String))
    (completion_order : List Repo) : List SyncResult :=
  completion_order.map (fun r => (sync_single_repo env cfg source_workflows r).1)

/-- Candidate filtering stage of `WorkflowSyncService.run`: drop the
entry whose full name equals that of the source, then resolve each remaining
candidate to a repository handle. -/
def reposToSync (env : Env) (cfg : SyncConfig) : List Repo :=
  ((env.searchByTopic cfg.org cfg.topic).filter
    (fun ri => ri.full_name != sourceFullName cfg)).map
    (fun ri => env.getRepo ri.full_name)

/-- Models `WorkflowSyncService.run`: load the desired workflow set
(fatal on failure), search targets by topic (empty search result is an
empty run, not an error), exclude the source repository, then dispatch
to the selected strategy. -/
def run (env : Env) (cfg : SyncConfig) (parallel : Bool)
    (completion_order : List Repo) : Except String (List SyncResult) :=
  match load_source_workflows env cfg with
  | .error e => .error e
  | .ok source_workflows =>
    let target_repos := env.searchByTopic cfg.org cfg.topic
    if target_repos.isEmpty then .ok []
    else
      let repos_to_sync := reposToSync env cfg
      if parallel then
        .ok (parallelSync env cfg source_workflows completion_order)
      else
        .ok (sequentialSync env cfg source_workflows repos_to_sync)

/-! Concrete fixtures used by the witness theorems. -/

/-- Concrete run configuration used by the witnesses. -/
def testCfg : SyncConfig :=
  { token := "t", org := "acme", topic := "ci", source_repo := "src" }

/-- Concrete dry-run configuration used by the witnesses. -/
def testCfgDry : SyncConfig :=
  { token := "t", org := "acme", topic := "ci", source_repo := "src",
    dry_run := true }

/-- Concrete target repository used by the witnesses. -/
def testRepoA : Repo :=
  { name := "alpha", full_name := "acme/alpha", archived := false,
    default_branch := .ok "main" }

/-- Concrete archived repository used by the witnesses. -/
def testRepoArch : Repo :=
  { name := "old", full_name := "acme/old", archived := true,
    default_branch := .ok "main" }

/-- Concrete gateway oracle used by the witnesses: one source workflow
file, no open PRs, every gateway call succeeds. -/
def testEnv : Env :=
  { getRepo := fun n =>
      { name := n, full_name := n, archived := false, default_branch := .ok "main" },
    searchByTopic := fun _ _ =>
      [ { name := "alpha", full_name := "acme/alpha", default_branch := "main" },
        { name := "src", full_name := "acme/src", default_branch := "main" } ],
    listDir := fun _ _ =>
      some [ { name := "ci.yml", content := "jobs: x", ftype := "file" } ],
    getFile := fun _ _ => .ok none,
    openPulls := fun _ => [],
    baseSha := fun _ _ => .ok "sha0",
    branchExistsRes := fun _ _ => .ok false,
    createBranchRes := fun _ _ => .ok (),
    writeOk := fun _ _ => true,
    createPullRes := fun _ _ => .ok "http://pr/1",
    deleteOk := fun _ _ => true,
    timestampMs := 1700000000000,
    randSuffix := 0 }

/-- Variant of `testEnv` where every file write fails. -/
def testEnvAllFail : Env :=
  { testEnv with writeOk := fun _ _ => false }

/-- Variant of `testEnv` whose target already holds `ci.yml` with
strip-equal content, so the diff is empty. -/
def testEnvSame : Env :=
  { testEnv with getFile := fun _ _ => .ok (some ("jobs: x\n", "sha1")) }

/-! Helper lemmas. -/

/-- A list is a `isPrefixOf`-prefix of itself followed by anything. -/
theorem isPrefixOf_self_append (l t : List Char) : l.isPrefixOf (l ++ t) = true := by
  induction l with
  | nil => simp
  | cons a l ih => simp [List.isPrefixOf, ih]

/-- Appending on the right preserves `pyStartswith`. -/
theorem pyStartswith_append_left (s t : String) : pyStartswith (s ++ t) s = true := by
  show s.data.isPrefixOf ((s ++ t).data) = true
  have h : (s ++ t).data = s.data ++ t.data := rfl
  rw [h]
  exact isPrefixOf_self_append _ _

/-- The two filters of a boolean predicate partition the length of a list. -/
theorem length_filter_partition {α : Type} (p : α → Bool) (l : List α) :
    (l.filter p).length + (l.filter fun a => !(p a)).length = l.length := by
  induction l with
  | nil => rfl
  | cons a l ih => cases h : p a <;> simp [List.filter_cons, h] <;> omega

/-- Characterisation of the per-file write loop: the updated and failed
name lists are the images of the success/failure filters, in change
order, and one write effect is traced per change. -/
theorem applyChanges_eq (env : Env) (rfn bn : String) (cs : List FileChange) :
    applyChanges env rfn bn cs =
      ((cs.filter fun c => env.writeOk rfn (wfPath c.filename)).map FileChange.filename,
       (cs.filter fun c => !(env.writeOk rfn (wfPath c.filename))).map FileChange.filename,
       cs.map fun c => Effect.writeFile (wfPath c.filename)) := by
  induction cs with
  | nil => rfl
  | cons c rest ih =>
    cases h : env.writeOk rfn (wfPath c.filename) <;>
      simp [applyChanges, ih, List.filter_cons, h]

/-- Characterisation of the diff recursion when every read succeeds,
with `look` giving the observed content/sha per filename. -/
theorem getRequiredChangesGo_eq (env : Env) (rfn : String)
    (look : String → Option (String × String))
    (ws : List (String × String))
    (h : ∀ fc ∈ ws, env.getFile rfn (wfPath fc.1) = .ok (look fc.1)) :
    getRequiredChangesGo env rfn ws = .ok (ws.filterMap fun fc =>
      match look fc.1 with
      | none => some { filename := fc.1, content := fc.2 }
      | some (ex, sha) =>
        if pyStrip ex ≠ pyStrip fc.2 then
          some { filename := fc.1, content := fc.2, existing_sha := some sha }
        else none) := by
  induction ws with
  | nil => rfl
  | cons fc rest ih =>
    obtain ⟨fn, nc⟩ := fc
    have h1 : env.getFile rfn (wfPath fn) = .ok (look fn) := h (fn, nc) (by simp)
    have h2 : ∀ fc ∈ rest, env.getFile rfn (wfPath fc.1) = .ok (look fc.1) :=
      fun fc hfc => h fc (by simp [hfc])
    have ih2 := ih h2
    simp only [getRequiredChangesGo, h1, ih2, List.filterMap_cons]
    cases hl : look fn with
    | none => simp
    | some pr =>
      obtain ⟨ex, sha⟩ := pr
      by_cases hs : pyStrip ex ≠ pyStrip nc
      · simp [hs]
      · simp [hs]

/-! Claim theorems. -/

/-- C1: for a non-empty change list, when the branch is created and the
PR call would succeed, the transaction returns `SUCCESS` with exactly
the succeeded filenames in `files_updated`, the failed filenames in
`files_failed`, a non-null `branch_created`, and opens a PR — provided
at least one write succeeded; if every write failed it returns `ERROR`,
opens no PR, and deletes the just-created branch.  The two filters
partition the N changes into the N−M successes and M failures. -/
theorem create_sync_pr_partial_write
    (env : Env) (cfg : SyncConfig) (repo : Repo) (changes : List FileChange)
    (db bn url : String)
    (hdb : repo.default_branch = .ok db)
    (hsha : ∃ s, env.baseSha repo.full_name db = .ok s)
    (hbn : generate_unique_branch_name env repo = .ok bn)
    (hcb : env.createBranchRes repo.full_name bn = .ok ())
    (hpr : env.createPullRes repo.full_name bn = .ok url)
    (_hne : changes ≠ []) :
    ((changes.filter fun c => env.writeOk repo.full_name (wfPath c.filename)).length
      + (changes.filter fun c => !(env.writeOk repo.full_name (wfPath c.filename))).length
      = changes.length)
    ∧ ((changes.filter fun c => env.writeOk repo.full_name (wfPath c.filename)) ≠ [] →
        (create_sync_pr env cfg repo changes).1.status = .SUCCESS
        ∧ (create_sync_pr env cfg repo changes).1.files_updated
            = (changes.filter fun c => env.writeOk repo.full_name (wfPath c.filename)).map
                FileChange.filename
        ∧ (create_sync_pr env cfg repo changes).1.files_failed
            = (changes.filter fun c => !(env.writeOk repo.full_name (wfPath c.filename))).map
                FileChange.filename
        ∧ (create_sync_pr env cfg repo changes).1.branch_created = some bn
        ∧ Effect.createPR bn ∈ (create_sync_pr env cfg repo changes).2)
    ∧ ((changes.filter fun c => env.writeOk repo.full_name (wfPath c.filename)) = [] →
        (create_sync_pr env cfg repo changes).1.status = .ERROR
        ∧ (create_sync_pr env cfg repo changes).1.files_failed
            = (changes.filter fun c => !(env.writeOk repo.full_name (wfPath c.filename))).map
                FileChange.filename
        ∧ (create_sync_pr env cfg repo changes).1.branch_created = some bn
        ∧ (∀ hb, Effect.createPR hb ∉ (create_sync_pr env cfg repo changes).2)
        ∧ Effect.deleteBranch bn ∈ (create_sync_pr env cfg repo changes).2) := by
  obtain ⟨sha, hsha⟩ := hsha
  have hac := applyChanges_eq env repo.full_name bn changes
  refine ⟨length_filter_partition _ _, ?_, ?_⟩
  · intro hup
    cases hflt : changes.filter fun c => env.writeOk repo.full_name (wfPath c.filename) with
    | nil => exact absurd hflt hup
    | cons a t =>
      rw [hflt] at hac
      simp only [create_sync_pr, hdb, hsha, hbn, hcb, hpr, hac, hflt]
      simp
  · intro hup
    rw [hup] at hac
    simp only [create_sync_pr, hdb, hsha, hbn, hcb, hpr, hac, hup]
    simp

/-- C1 witness: with one change whose write succeeds, the transaction
yields `SUCCESS` with that filename updated. -/
theorem create_sync_pr_partial_write_witness :
    (create_sync_pr testEnv testCfg testRepoA
        [{ filename := "ci.yml", content := "jobs: x" }]).1.status = SyncStatus.SUCCESS
    ∧ (create_sync_pr testEnv testCfg testRepoA
        [{ filename := "ci.yml", content := "jobs: x" }]).1.files_updated = ["ci.yml"] := by
  have h := create_sync_pr_partial_write testEnv testCfg testRepoA
    [{ filename := "ci.yml", content := "jobs: x" }]
    "main" "sync/workflows-update-1700000000000" "http://pr/1"
    rfl ⟨"sha0", rfl⟩ rfl rfl rfl (by simp)
  have h2 := h.2.1 (by simp [testEnv, wfPath])
  exact ⟨h2.1, by rw [h2.2.1]; rfl⟩

/-- C2: the diff computer emits, per desired filename, a creation
`FileChange` (no version token) when the file is absent, an update
`FileChange` carrying the existing sha when the stripped contents
differ, and nothing when they are strip-equal; consequently a target
already holding strip-equal copies of every desired file yields an
empty change list and `sync_single_repo` ends in `NO_CHANGES` with no
branch, file write or PR. -/
theorem computeChanges_spec_and_idempotence
    (env : Env) (cfg : SyncConfig) (repo : Repo)
    (ws : List (String × String))
    (look : String → Option (String × String))
    (hread : ∀ fc ∈ ws, env.getFile repo.full_name (wfPath fc.1) = .ok (look fc.1)) :
    get_required_changes env ws repo = .ok (ws.filterMap fun fc =>
      match look fc.1 with
      | none => some { filename := fc.1, content := fc.2 }
      | some (ex, sha) =>
        if pyStrip ex ≠ pyStrip fc.2 then
          some { filename := fc.1, content := fc.2, existing_sha := some sha }
        else none)
    ∧ ((∀ fc ∈ ws, ∃ ex sha, look fc.1 = some (ex, sha) ∧ pyStrip ex = pyStrip fc.2) →
        check_skip_conditions env repo = none →
        sync_single_repo env cfg ws repo =
          ({ repo_name := repo.name, status := .NO_CHANGES,
             message := "Todos los workflows están actualizados" }, [])) := by
  have hchar := getRequiredChangesGo_eq env repo.full_name look ws hread
  refine ⟨hchar, ?_⟩
  intro hsame hskip
  have hnil : (ws.filterMap fun fc =>
      match look fc.1 with
      | none => some ({ filename := fc.1, content := fc.2 } : FileChange)
      | some (ex, sha) =>
        if pyStrip ex ≠ pyStrip fc.2 then
          some { filename := fc.1, content := fc.2, existing_sha := some sha }
        else none) = [] := by
    rw [List.filterMap_eq_nil_iff]
    intro fc hfc
    obtain ⟨ex, sha, hl, hs⟩ := hsame fc hfc
    simp [hl, hs]
  have hch : get_required_changes env ws repo = .ok [] := by
    show getRequiredChangesGo env repo.full_name ws = .ok []
    rw [hchar, hnil]
  simp [sync_single_repo, hskip, hch]

/-- C2 witness: a target already holding strip-equal content for the
single desired file ends in `NO_CHANGES` with an empty trace. -/
theorem computeChanges_spec_and_idempotence_witness :
    get_required_changes testEnvSame [("ci.yml", "jobs: x")] testRepoA = .ok []
    ∧ sync_single_repo testEnvSame testCfg [("ci.yml", "jobs: x")] testRepoA =
        ({ repo_name := "alpha", status := .NO_CHANGES,
           message := "Todos los workflows están actualizados" }, []) := by
  have h := computeChanges_spec_and_idempotence testEnvSame testCfg testRepoA
    [("ci.yml", "jobs: x")] (fun _ => some ("jobs: x\n", "sha1"))
    (by intro fc _; rfl)
  refine ⟨?_, ?_⟩
  · rw [h.1]; rfl
  · have hs : ∀ fc ∈ [("ci.yml", "jobs: x")], ∃ ex sha,
        (fun (_ : String) => some ("jobs: x\n", "sha1")) fc.1 = some (ex, sha)
        ∧ pyStrip ex = pyStrip fc.2 := by
      intro fc hfc
      simp only [List.mem_singleton] at hfc
      subst hfc
      exact ⟨"jobs: x\n", "sha1", rfl, by decide⟩
    have := h.2 hs (by rfl)
    simpa [testRepoA] using this

/-- C3: the skip evaluator checks archived first, then default-branch
resolvability, then pre-existing open sync PRs, first match wins (with
the URL of the existing PR in the third message), and returns `none` if and
only if all three checks pass. -/
theorem check_skip_conditions_spec (env : Env) (repo : Repo) :
    (repo.archived = true →
      check_skip_conditions env repo =
        some { repo_name := repo.name, status := .SKIPPED,
               message := "Repositorio archivado" })
    ∧ (∀ e, repo.archived = false → repo.default_branch = .error e →
      check_skip_conditions env repo =
        some { repo_name := repo.name, status := .SKIPPED,
               message := "Repositorio vacío (sin commits)" })
    ∧ (repo.archived = false → repo.default_branch = .ok "" →
      check_skip_conditions env repo =
        some { repo_name := repo.name, status := .SKIPPED,
               message := "Repositorio sin branch por defecto" })
    ∧ (∀ db b u rest, repo.archived = false → repo.default_branch = .ok db → db ≠ "" →
      (env.openPulls repo.full_name).filter
          (fun p => pyStartswith p.1 branchPrefixName) = (b, u) :: rest →
      check_skip_conditions env repo =
        some { repo_name := repo.name, status := .SKIPPED,
               message := "PR de sync existente: " ++ u })
    ∧ (check_skip_conditions env repo = none ↔
        repo.archived = false
        ∧ ∃ db, repo.default_branch = .ok db ∧ db ≠ ""
          ∧ (env.openPulls repo.full_name).filter
              (fun p => pyStartswith p.1 branchPrefixName) = []) := by
  refine ⟨?_, ?_, ?_, ?_, ?_⟩
  · intro ha; simp [check_skip_conditions, ha]
  · intro e ha hd; simp [check_skip_conditions, ha, hd]
  · intro ha hd; simp [check_skip_conditions, ha, hd]
  · intro db b u rest ha hd hne hf
    simp [check_skip_conditions, ha, hd, hne, hf]
  · constructor
    · intro h
      by_cases ha : repo.archived = true
      · simp [check_skip_conditions, ha] at h
      · have ha' : repo.archived = false := by simpa using ha
        refine ⟨ha', ?_⟩
        cases hd : repo.default_branch with
        | error e => simp [check_skip_conditions, ha', hd] at h
        | ok db =>
          by_cases hdb : db = ""
          · subst hdb; simp [check_skip_conditions, ha', hd] at h
          · refine ⟨db, rfl, hdb, ?_⟩
            cases hf : (env.openPulls repo.full_name).filter
                (fun p => pyStartswith p.1 branchPrefixName) with
            | nil => rfl
            | cons pr rest => simp [check_skip_conditions, ha', hd, hdb, hf] at h
    · rintro ⟨ha, db, hd, hne, hf⟩
      simp [check_skip_conditions, ha, hd, hne, hf]

/-- C3 witness: an archived repository is skipped with the archived
message, and a live repository with a default branch and no open sync
PR passes all three checks. -/
theorem check_skip_conditions_spec_witness :
    check_skip_conditions testEnv testRepoArch =
      some { repo_name := testRepoArch.name, status := .SKIPPED,
             message := "Repositorio archivado" }
    ∧ check_skip_conditions testEnv testRepoA = none := by
  refine ⟨(check_skip_conditions_spec testEnv testRepoArch).1 rfl, ?_⟩
  exact (check_skip_conditions_spec testEnv testRepoA).2.2.2.2.mpr
    ⟨rfl, "main", rfl, by decide, rfl⟩

/-- C4: under dry run, a target with a non-empty pending change list
yields `SKIPPED` listing exactly the filenames that would change, and
the mutation trace is empty: no branch-create, file-write, or
PR-create call occurs. -/
theorem dry_run_purity
    (env : Env) (cfg : SyncConfig) (ws : List (String × String))
    (repo : Repo) (cs : List FileChange)
    (hdry : cfg.dry_run = true)
    (hskip : check_skip_conditions env repo = none)
    (hch : get_required_changes env ws repo = .ok cs)
    (hne : cs ≠ []) :
    sync_single_repo env cfg ws repo =
      ({ repo_name := repo.name, status := .SKIPPED,
         message := "Dry run - " ++ toString cs.length ++ " archivo(s) cambiarían",
         files_updated := cs.map (·.filename) }, []) := by
  have hie : cs.isEmpty = false := by
    cases cs with
    | nil => exact absurd rfl hne
    | cons a t => rfl
  simp [sync_single_repo, hskip, hch, hie, hdry]

/-- C4 witness: a dry run over one missing desired file is skipped,
listing that file, with an empty mutation trace. -/
theorem dry_run_purity_witness :
    sync_single_repo testEnv testCfgDry [("ci.yml", "jobs: x")] testRepoA =
      ({ repo_name := "alpha", status := .SKIPPED,
         message := "Dry run - 1 archivo(s) cambiarían",
         files_updated := ["ci.yml"] }, []) := by
  have h := dry_run_purity testEnv testCfgDry [("ci.yml", "jobs: x")] testRepoA
    [{ filename := "ci.yml", content := "jobs: x" }] rfl rfl rfl (by simp)
  simpa using h

/-- The transaction never reads the deletion oracle: its result and
trace are unchanged under any reassignment of `deleteOk`. -/
theorem create_sync_pr_ignores_deleteOk (env : Env) (d1 d2 : String → String → Bool)
    (cfg : SyncConfig) (repo : Repo) (changes : List FileChange) :
    create_sync_pr { env with deleteOk := d1 } cfg repo changes =
    create_sync_pr { env with deleteOk := d2 } cfg repo changes := by
  have hgen : ∀ d : String → String → Bool,
      generate_unique_branch_name { env with deleteOk := d } repo
        = generate_unique_branch_name env repo := fun d => rfl
  have hup : ∀ (d : String → String → Bool) (rfn bn : String),
      applyChanges { env with deleteOk := d } rfn bn changes
        = applyChanges env rfn bn changes := by
    intro d rfn bn
    rw [applyChanges_eq, applyChanges_eq]
  calc create_sync_pr { env with deleteOk := d1 } cfg repo changes
      = create_sync_pr env cfg repo changes := by
        simp only [create_sync_pr, hgen, hup]
    _ = create_sync_pr { env with deleteOk := d2 } cfg repo changes := by
        simp only [create_sync_pr, hgen, hup]

/-- C5: whenever the transaction ends in `ERROR` with a recorded branch
name, a deletion of that branch is in the mutation trace, and the
returned result and trace never depend on whether the deletion itself
succeeds (cleanup failure is logged, never propagated). -/
theorem error_outcome_branch_cleanup
    (env : Env) (cfg : SyncConfig) (repo : Repo) (changes : List FileChange) (b : String)
    (herr : (create_sync_pr env cfg repo changes).1.status = .ERROR)
    (hbr : (create_sync_pr env cfg repo changes).1.branch_created = some b) :
    Effect.deleteBranch b ∈ (create_sync_pr env cfg repo changes).2
    ∧ ∀ d1 d2 : String → String → Bool,
        create_sync_pr { env with deleteOk := d1 } cfg repo changes =
        create_sync_pr { env with deleteOk := d2 } cfg repo changes := by
  refine ⟨?_, fun d1 d2 => create_sync_pr_ignores_deleteOk env d1 d2 cfg repo changes⟩
  cases hdb : repo.default_branch with
  | error e => simp [create_sync_pr, hdb, errorResult] at hbr
  | ok db =>
    cases hsha : env.baseSha repo.full_name db with
    | error e => simp [create_sync_pr, hdb, hsha, errorResult] at hbr
    | ok sha =>
      cases hbn : generate_unique_branch_name env repo with
      | error e => simp [create_sync_pr, hdb, hsha, hbn, errorResult] at hbr
      | ok bn =>
        cases hcb : env.createBranchRes repo.full_name bn with
        | error e =>
          simp [create_sync_pr, hdb, hsha, hbn, hcb, errorResult] at hbr ⊢
          simp [hbr]
        | ok uu =>
          have hac := applyChanges_eq env repo.full_name bn changes
          cases hflt : changes.filter fun c => env.writeOk repo.full_name (wfPath c.filename) with
          | nil =>
            rw [hflt] at hac
            simp [create_sync_pr, hdb, hsha, hbn, hcb, hac] at hbr ⊢
            simp [hbr]
          | cons a t =>
            rw [hflt] at hac
            cases hpr : env.createPullRes repo.full_name bn with
            | error e =>
              simp [create_sync_pr, hdb, hsha, hbn, hcb, hac, hpr, errorResult] at hbr ⊢
              simp [hbr]
            | ok url =>
              simp [create_sync_pr, hdb, hsha, hbn, hcb, hac, hpr] at herr

/-- C5 witness: with every write failing, the transaction errors out
and the trace holds the deletion of the branch it created. -/
theorem error_outcome_branch_cleanup_witness :
    Effect.deleteBranch "sync/workflows-update-1700000000000" ∈
      (create_sync_pr testEnvAllFail testCfg testRepoA
        [{ filename := "ci.yml", content := "jobs: x" }]).2 := by
  have h := error_outcome_branch_cleanup testEnvAllFail testCfg testRepoA
    [{ filename := "ci.yml", content := "jobs: x" }]
    "sync/workflows-update-1700000000000" (by rfl) (by rfl)
  exact h.1

/-- Appending on the right of the larger list preserves `isPrefixOf`. -/
theorem isPrefixOf_append_of_isPrefixOf (l m t : List Char)
    (h : l.isPrefixOf m = true) : l.isPrefixOf (m ++ t) = true := by
  induction l generalizing m with
  | nil => simp
  | cons a l ih =>
    cases m with
    | nil => simp [List.isPrefixOf] at h
    | cons b m =>
      simp only [List.isPrefixOf, Bool.and_eq_true, beq_iff_eq] at h ⊢
      exact ⟨h.1, ih m h.2⟩

/-- Appending on the right preserves an existing `pyStartswith`. -/
theorem pyStartswith_extend (s p t : String) (h : pyStartswith s p = true) :
    pyStartswith (s ++ t) p = true := by
  show p.data.isPrefixOf ((s ++ t).data) = true
  have h2 : (s ++ t).data = s.data ++ t.data := rfl
  rw [h2]
  exact isPrefixOf_append_of_isPrefixOf _ _ _ h

/-- Every repository dispatched by the orchestrator comes from a
candidate whose full name differs from that of the source, provided the
gateway resolves a full name to that repository. -/
theorem reposToSync_not_source (env : Env) (cfg : SyncConfig)
    (hg : ∀ n, (env.getRepo n).full_name = n) :
    ∀ repo ∈ reposToSync env cfg, repo.full_name ≠ sourceFullName cfg := by
  intro repo hr
  simp only [reposToSync, List.mem_map, List.mem_filter] at hr
  obtain ⟨ri, ⟨hmem, hne⟩, rfl⟩ := hr
  rw [hg]
  simpa using hne

/-- C6: the full name of the source repository is excluded before dispatch:
every result of a run arises from applying `sync_single_repo` to a
dispatched repository whose full name differs from `org/source_repo`,
so no outcome ever refers to the source repository. -/
theorem run_excludes_source (env : Env) (cfg : SyncConfig)
    (parallel : Bool) (order : List Repo) (rs : List SyncResult)
    (hg : ∀ n, (env.getRepo n).full_name = n)
    (horder : order.Perm (reposToSync env cfg))
    (hrun : run env cfg parallel order = .ok rs) :
    ∀ res ∈ rs, ∃ repo, repo ∈ reposToSync env cfg ∧
      repo.full_name ≠ sourceFullName cfg ∧
      ∃ ws, load_source_workflows env cfg = .ok ws ∧
        res = (sync_single_repo env cfg ws repo).1 := by
  intro res hres
  cases hload : load_source_workflows env cfg with
  | error e => simp [run, hload] at hrun
  | ok ws =>
    by_cases hemp : (env.searchByTopic cfg.org cfg.topic).isEmpty
    · simp [run, hload, hemp] at hrun
      subst hrun
      simp at hres
    · cases parallel with
      | true =>
        simp [run, hload, hemp, parallelSync] at hrun
        subst hrun
        obtain ⟨repo, hrepo, rfl⟩ := List.mem_map.mp hres
        have hmem : repo ∈ reposToSync env cfg := horder.mem_iff.mp hrepo
        exact ⟨repo, hmem, reposToSync_not_source env cfg hg repo hmem, ws, rfl, rfl⟩
      | false =>
        simp [run, hload, hemp, sequentialSync] at hrun
        subst hrun
        obtain ⟨repo, hrepo, rfl⟩ := List.mem_map.mp hres
        exact ⟨repo, hrepo, reposToSync_not_source env cfg hg repo hrepo, ws, rfl, rfl⟩

/-- C6 witness: a concrete run whose topic search returns the source
repository itself still produces its one outcome from the non-source
candidate. -/
theorem run_excludes_source_witness :
    ∃ repo, repo ∈ reposToSync testEnv testCfg ∧
      repo.full_name ≠ sourceFullName testCfg ∧
      ∃ ws, load_source_workflows testEnv testCfg = .ok ws ∧
        ({ repo_name := "acme/alpha", status := .SUCCESS,
           pr_url := some "http://pr/1",
           message := "1 archivo(s) actualizados",
           files_updated := ["ci.yml"], files_failed := [],
           branch_created := some "sync/workflows-update-1700000000000" } : SyncResult) =
          (sync_single_repo testEnv testCfg ws repo).1 := by
  have h := run_excludes_source testEnv testCfg false (reposToSync testEnv testCfg)
    (sequentialSync testEnv testCfg [("ci.yml", "jobs: x")] (reposToSync testEnv testCfg))
    (fun n => rfl) (List.Perm.refl _) rfl
  exact h _ (by decide)

/-- C7: a run never proceeds past the load stage with an empty desired
workflow set: a loaded set is non-empty, a missing source workflow
path is a fatal error, and a run that returns results loaded a
non-empty set. -/
theorem load_source_workflows_nonempty (env : Env) (cfg : SyncConfig) :
    (∀ ws, load_source_workflows env cfg = .ok ws → ws ≠ [])
    ∧ (env.listDir (env.getRepo (sourceFullName cfg)).full_name WORKFLOWS_PATH = none →
        ∃ e, load_source_workflows env cfg = .error e)
    ∧ (∀ parallel order rs, run env cfg parallel order = .ok rs →
        ∃ ws, load_source_workflows env cfg = .ok ws ∧ ws ≠ []) := by
  have h1 : ∀ ws, load_source_workflows env cfg = .ok ws → ws ≠ [] := by
    intro ws hws
    simp only [load_source_workflows] at hws
    split at hws
    next => exact absurd hws (by simp)
    next =>
      split at hws
      all_goals
        split at hws
        next => exact absurd hws (by simp)
        next hie =>
          have hv := Except.ok.inj hws
          intro hnil
          rw [hv, hnil] at hie
          simp at hie
  refine ⟨h1, ?_, ?_⟩
  · intro hnil
    refine ⟨"Workflows path not found: " ++ WORKFLOWS_PATH, ?_⟩
    simp [load_source_workflows, get_workflow_files, hnil]
  · intro parallel order rs hrun
    cases hload : load_source_workflows env cfg with
    | error e => simp [run, hload] at hrun
    | ok ws => exact ⟨ws, rfl, h1 ws hload⟩

/-- C7 witness: the test source loads one workflow file, which is a
non-empty set. -/
theorem load_source_workflows_nonempty_witness :
    [("ci.yml", "jobs: x")] ≠ ([] : List (String × String)) :=
  (load_source_workflows_nonempty testEnv testCfg).1 [("ci.yml", "jobs: x")] rfl

/-- C8: for a fixed oracle, configuration and desired set, the multiset
of outcome statuses produced by the parallel strategy under any
completion order equals the multiset produced by the sequential
strategy over the same targets. -/
theorem scheduling_equivalence (env : Env) (cfg : SyncConfig)
    (ws : List (String × String)) (repos order : List Repo)
    (hperm : order.Perm repos) :
    ((parallelSync env cfg ws order).map SyncResult.status : Multiset SyncStatus) =
    ((sequentialSync env cfg ws repos).map SyncResult.status : Multiset SyncStatus) := by
  apply Multiset.coe_eq_coe.mpr
  unfold parallelSync sequentialSync
  rw [List.map_map, List.map_map]
  exact hperm.map _

/-- C8 witness: two targets processed in swapped completion order give
the same status multiset as the sequential order. -/
theorem scheduling_equivalence_witness :
    ((parallelSync testEnv testCfg [("ci.yml", "jobs: x")]
        [testRepoA, testRepoArch]).map SyncResult.status : Multiset SyncStatus) =
    ((sequentialSync testEnv testCfg [("ci.yml", "jobs: x")]
        [testRepoArch, testRepoA]).map SyncResult.status : Multiset SyncStatus) :=
  scheduling_equivalence testEnv testCfg [("ci.yml", "jobs: x")]
    [testRepoArch, testRepoA] [testRepoA, testRepoArch] (List.Perm.swap _ _ _)

/-- C9: every branch name the generator returns starts with the
reserved prefix, so an open PR on such a branch makes the skip guard
of a subsequent run return `SKIPPED` with the URL of that PR. -/
theorem generated_branch_matches_guard
    (env env2 : Env) (repo repo2 : Repo) (bn : String)
    (hbn : generate_unique_branch_name env repo = .ok bn) :
    pyStartswith bn branchPrefixName = true
    ∧ (∀ url db, repo2.archived = false → repo2.default_branch = .ok db → db ≠ "" →
        env2.openPulls repo2.full_name = [(bn, url)] →
        check_skip_conditions env2 repo2 =
          some { repo_name := repo2.name, status := .SKIPPED,
                 message := "PR de sync existente: " ++ url }) := by
  have hbase : pyStartswith (branchPrefixName ++ "-"
      ++ toString env.timestampMs) branchPrefixName = true :=
    pyStartswith_extend _ _ _ (pyStartswith_append_left _ _)
  have hpre : pyStartswith bn branchPrefixName = true := by
    simp only [generate_unique_branch_name] at hbn
    cases hex : env.branchExistsRes repo.full_name
        (branchPrefixName ++ "-" ++ toString env.timestampMs) with
    | error e => rw [hex] at hbn; simp at hbn
    | ok b =>
      rw [hex] at hbn
      cases b
      · have hv : branchPrefixName ++ "-" ++ toString env.timestampMs = bn := by
          simpa using hbn
        rw [← hv]
        exact hbase
      · have hv : branchPrefixName ++ "-" ++ toString env.timestampMs ++ "-"
            ++ toString (1000 + env.randSuffix % 9000) = bn := by
          simpa using hbn
        rw [← hv]
        exact pyStartswith_extend _ _ _ (pyStartswith_extend _ _ _ hbase)
  refine ⟨hpre, ?_⟩
  intro url db ha hd hne hop
  simp [check_skip_conditions, ha, hd, hne, hop, List.filter, hpre]

/-- C9 witness: the concrete generated name starts with the reserved
prefix. -/
theorem generated_branch_matches_guard_witness :
    pyStartswith "sync/workflows-update-1700000000000" branchPrefixName = true :=
  (generated_branch_matches_guard testEnv testEnv testRepoA testRepoA
    "sync/workflows-update-1700000000000" (by decide)).1

/-- C10: the no-changes check precedes the dry-run check: under dry run
an empty change list yields `NO_CHANGES` (not `SKIPPED`), and a
`SKIPPED` outcome past the skip checks implies a non-empty change
list. -/
theorem no_changes_precedes_dry_run (env : Env) (cfg : SyncConfig)
    (ws : List (String × String)) (repo : Repo) (cs : List FileChange)
    (_hdry : cfg.dry_run = true)
    (hskip : check_skip_conditions env repo = none)
    (hch : get_required_changes env ws repo = .ok cs) :
    (cs = [] → (sync_single_repo env cfg ws repo).1.status = .NO_CHANGES)
    ∧ ((sync_single_repo env cfg ws repo).1.status = .SKIPPED → cs ≠ []) := by
  constructor
  · intro hnil
    subst hnil
    simp [sync_single_repo, hskip, hch]
  · intro hsk hnil
    subst hnil
    simp [sync_single_repo, hskip, hch] at hsk

/-- C10 witness: under dry run with an up-to-date target the outcome is
`NO_CHANGES`. -/
theorem no_changes_precedes_dry_run_witness :
    (sync_single_repo testEnvSame testCfgDry [("ci.yml", "jobs: x")] testRepoA).1.status
      = SyncStatus.NO_CHANGES := by
  have h := no_changes_precedes_dry_run testEnvSame testCfgDry
    [("ci.yml", "jobs: x")] testRepoA [] rfl rfl (by decide)
  exact h.1 rfl

end WorkflowSync
